import Mathlib

/-!
# Verification of the BIT-language interpreter (`src/Main.cpp`)

This file shallowly embeds the data model, the evaluator and the relevant
parts of the parser of the C++ BIT-language interpreter, and proves/refutes
the specification claims about it.

Conventions of the embedding:
* C++ `int` is modelled as `Int`; the one computation a claim quantifies
  into the 32-bit overflow region (the `parse_bits` accumulator) carries an
  explicit two's-complement reduction `wrap32`, and the other quantities in
  the claims stay far away from the 32-bit boundary;
* fatal errors (`show_runtime_error` / `show_parser_error` followed by
  `exit(1)`) are modelled as `Except.error`/`Option.none` results;
* the process-wide globals `memory` and `jump_register` are modelled as an
  explicit state record `St` threaded through the evaluation functions;
* `memory_read`'s lazy materialisation of a fresh cell (`memory[address] =
  {0, UNDEFINED}`) is observationally pure (the materialised entry is exactly
  what a later read returns), so reads are modelled as pure functions.
-/

/-- `enum ValueType { UNDEFINED = 0, BIT = 1, ADDRESS_OF_A_BIT = 2 }`. -/
inductive ValueType where
  | UNDEFINED
  | BIT
  | ADDRESS_OF_A_BIT
deriving DecidableEq, Repr

/-- The raw integer encoding of the C++ enum (used by the source in the
implicit `int` conversions `value.value == BIT` / `== ADDRESS_OF_A_BIT`). -/
def ValueType.toInt : ValueType → Int
  | .UNDEFINED => 0
  | .BIT => 1
  | .ADDRESS_OF_A_BIT => 2

/-- `struct Value { int value; ValueType type; }`. -/
structure Value where
  value : Int
  type : ValueType
deriving DecidableEq, Repr

/-- `static const int jump_register_address = -1;` -/
def jump_register_address : Int := -1

/-- `INT_MIN`, the default of `AssignmentNode::address`. -/
def int_min : Int := -2147483648

/-- The interpreter's mutable globals: `map<int, Value> memory` and
`int jump_register`. -/
structure St where
  memory : Int → Option Value
  jump_register : Int

/-- The initial state after `parse` resets the globals:
`memory.clear(); jump_register = 0;`. -/
def st0 : St := ⟨fun _ => none, 0⟩

/-- `Value memory_read(int address)` from `src/Main.cpp`.  A fresh cell reads
as `{0, UNDEFINED}` (the source also materialises that entry, an
observationally pure side effect that is dropped here). -/
def memory_read (st : St) (address : Int) : Except String Value :=
  if address = jump_register_address then
    .ok ⟨st.jump_register, ValueType.BIT⟩
  else if address > jump_register_address then
    match st.memory address with
    | none => .ok ⟨0, ValueType.UNDEFINED⟩
    | some v => .ok v
  else
    .error ("Invalid memory address: " ++ toString address ++ ".")

/-- `void memory_write(int address, Value value)` from `src/Main.cpp`. -/
def memory_write (st : St) (address : Int) (v : Value) : Except String St :=
  if v.type = ValueType.BIT ∧ v.value ≠ 0 ∧ v.value ≠ 1 then
    .error ("Illegal value: " ++ toString v.value)
  else if address = jump_register_address then
    if v.type = ValueType.ADDRESS_OF_A_BIT then
      .error "The jump register can't store address-of-a-bit values."
    else
      .ok { st with jump_register := v.value }
  else if address > jump_register_address then
    .ok { st with memory := fun a => if a = address then some v else st.memory a }
  else
    .error ("Invalid memory address: " ++ toString address ++ ".")

/-- The expression AST of the interpreter.  `Expression1Node` (the NAND
level) carries a possibly-NULL `right` pointer in the source; the
`right == NULL` pass-through case is the separate constructor `expr1pass`
so that all constructors are plain `Expr` children. -/
inductive Expr where
  /-- `Expression1Node` with `right != NULL` (a NAND application). -/
  | expr1 (left : Expr) (right : Expr)
  /-- `Expression1Node` with `right == NULL` (pass-through). -/
  | expr1pass (left : Expr)
  /-- `Expression2Node`: `THE ADDRESS OF` -/
  | expr2 (child : Expr)
  /-- `Expression3Node`: `THE VALUE BEYOND` -/
  | expr3 (child : Expr)
  /-- `Expression4Node`: `THE VALUE AT` -/
  | expr4 (child : Expr)
  /-- `Expression5Node`: a bit-string constant -/
  | expr5 (constant : Int)
  /-- `VariableNode`: `VARIABLE <bits>` or `THE JUMP REGISTER` -/
  | var (address : Int)
deriving DecidableEq, Repr

/-- The `value()` virtual methods of the expression node classes
(`Expression1Node::value` … `VariableNode::value`), one match arm per class,
translated line by line from `src/Main.cpp`.  Note that the source's type
checks in `Expression1Node`, `Expression2Node`, `Expression3Node` and
`Expression4Node` compare the *payload* `value.value` against the raw enum
encodings (`BIT` = 1, `ADDRESS_OF_A_BIT` = 2), not the tag `value.type`;
the embedding reproduces this faithfully via `ValueType.toInt`. -/
def Expr.value : Expr → St → Except String Value
  | .expr1 left right, st =>
    match left.value st with
    | .error m => .error m
    | .ok value_left =>
      match right.value st with
      | .error m => .error m
      | .ok value_right =>
        -- source: `value_left.value == ADDRESS_OF_A_BIT || value_right.value == ADDRESS_OF_A_BIT`
        if value_left.value = ValueType.ADDRESS_OF_A_BIT.toInt ∨
            value_right.value = ValueType.ADDRESS_OF_A_BIT.toInt then
          .error "The NAND operator requires bit values."
        else
          -- source: `return { ~(value_left.value & value_right.value), BIT };`
          .ok ⟨Int.not (Int.land value_left.value value_right.value), ValueType.BIT⟩
  | .expr1pass left, st => left.value st
  | .expr2 child, st =>
    match child.value st with
    | .error m => .error m
    | .ok value =>
      -- source: `value.value == ADDRESS_OF_A_BIT`
      if value.value = ValueType.ADDRESS_OF_A_BIT.toInt then
        .error "The THE ADDRESS OF operator requires a bit value."
      else if value.value < jump_register_address then
        .error ("Invalid memory address: " ++ toString value.value ++ ".")
      else if value.value = jump_register_address then
        .error "The THE ADDRESS OF operator can't be used with the jump register."
      else
        .ok ⟨value.value, ValueType.ADDRESS_OF_A_BIT⟩
  | .expr3 child, st =>
    match child.value st with
    | .error m => .error m
    | .ok value =>
      -- source: `value.value == BIT`
      if value.value = ValueType.BIT.toInt then
        .error "The THE VALUE BEYOND operator requires an address-of-a-bit value."
      else if value.value < 0 then
        .error ("Invalid memory address: " ++ toString value.value ++ ".")
      else
        match memory_read st (value.value + 1) with
        | .error m => .error m
        | .ok result =>
          -- source: `result.value == ADDRESS_OF_A_BIT`
          if result.value = ValueType.ADDRESS_OF_A_BIT.toInt then
            .error "Variable must contain a bit value."
          else
            .ok result
  | .expr4 child, st =>
    match child.value st with
    | .error m => .error m
    | .ok value =>
      -- source: `value.value == BIT` (the error message is the
      -- `THE VALUE BEYOND` one, copied verbatim in the source)
      if value.value = ValueType.BIT.toInt then
        .error "The THE VALUE BEYOND operator requires an address-of-a-bit value."
      else if value.value < 0 then
        .error ("Invalid memory address: " ++ toString value.value ++ ".")
      else
        match memory_read st value.value with
        | .error m => .error m
        | .ok result =>
          if result.value = ValueType.ADDRESS_OF_A_BIT.toInt then
            .error "Variable must contain a bit value."
          else
            .ok result
  | .expr5 constant, _ => .ok ⟨constant, ValueType.UNDEFINED⟩
  | .var address, st =>
    if address ≥ jump_register_address then
      memory_read st address
    else
      .error ("Illegal address: " ++ toString address ++ ".")

/-- `class AssignmentNode`: fields `address` (default `INT_MIN`),
`address_expression` and `expression`.  `address_expression` is NULL exactly
when the target was a bare variable / the jump register. -/
structure AssignmentNode where
  address : Int
  address_expression : Option Expr
  expression : Expr
deriving Repr

/-- `void AssignmentNode::run()` from `src/Main.cpp`.  The source
dereferences `address_expression` unconditionally in the `else` branch;
parser-produced nodes have `address_expression != NULL` there, the
(unreachable) NULL dereference is modelled as an error. -/
def AssignmentNode.run (a : AssignmentNode) (st : St) : Except String St :=
  if a.address ≥ jump_register_address then
    match a.expression.value st with
    | .error m => .error m
    | .ok v => memory_write st a.address v
  else
    match a.address_expression with
    | none => .error "null pointer dereference"
    | some ae =>
      match ae.value st with
      | .error m => .error m
      | .ok va =>
        match a.expression.value st with
        | .error m => .error m
        | .ok v => memory_write st va.value v

/-- `class GotoNode`, default-constructed as
`next({ -1, BIT }), next_if_zero(-1), next_if_one(-1)`. -/
structure GotoNode where
  next : Value
  next_if_zero : Int
  next_if_one : Int
deriving DecidableEq, Repr

/-- The `GotoNode()` default constructor values. -/
def gotoDefault : GotoNode := ⟨⟨-1, ValueType.BIT⟩, -1, -1⟩

/-- `int GotoNode::next_line_number()` from `src/Main.cpp` (a return value
of `-1` means "halt"; the source returns plain ints, errors can only arise
from the `memory_read` in the indirect branch). -/
def GotoNode.next_line_number (g : GotoNode) (st : St) : Except String Int :=
  if g.next.value > -1 then
    if g.next.type = ValueType.ADDRESS_OF_A_BIT then
      match memory_read st g.next.value with
      | .error m => .error m
      | .ok v => .ok v.value
    else
      .ok g.next.value
  else if g.next_if_zero > -1 ∧ st.jump_register = 0 then
    .ok g.next_if_zero
  else if g.next_if_one > -1 ∧ st.jump_register = 1 then
    .ok g.next_if_one
  else
    .ok (-1)

/-- `class CommandNode` / `class AssignmentNode` as the two
`InstructionNode` variants. -/
inductive Instruction where
  | command (print_value : Int)
  | assignment (a : AssignmentNode)
deriving Repr

/-- `class LineNode` (`go == NULL` is `none`). -/
structure LineNode where
  line_number : Int
  instruction : Instruction
  go : Option GotoNode
deriving Repr

/-- `class CodeNode`: `map<int, LineNode> lines` modelled as an association
list of (line number, line). -/
structure CodeNode where
  lines : List (Int × LineNode)
  first_line_number : Int
deriving Repr

/-- `lines.count(n) != 0` on the `map<int, LineNode>`. -/
def CodeNode.hasLine (c : CodeNode) (n : Int) : Bool :=
  c.lines.any (fun p => p.1 = n)

/-- One next-line resolution step of the `CodeNode::run` loop from
`src/Main.cpp`: after a line's instruction has executed, `run` breaks if the
line has no goto, otherwise computes `next_line_number()`; the loop condition
`next_line_number >= 0` decides halting, and inside the loop a missing line
is the fatal error `"No line exists with number ..."`.  `.ok none` models
"execution halts". -/
def resolve_next (code : CodeNode) (go : Option GotoNode) (st : St) :
    Except String (Option Int) :=
  match go with
  | none => .ok none
  | some g =>
    match g.next_line_number st with
    | .error m => .error m
    | .ok n =>
      if n ≥ 0 then
        if code.hasLine n then .ok (some n)
        else .error ("No line exists with number " ++ toString n ++ ".")
      else
        .ok none

/-! ## Concrete states used by the counterexample / code-bug theorems -/

/-- A state whose cells 0 and 1 both hold the Bit value 0. -/
def stB : St :=
  ⟨fun a => if a = 0 then some ⟨0, .BIT⟩ else if a = 1 then some ⟨0, .BIT⟩ else none, 0⟩

/-- A state whose cells 0 and 1 both hold the Bit value 1. -/
def stB2 : St :=
  ⟨fun a => if a = 0 then some ⟨1, .BIT⟩ else if a = 1 then some ⟨1, .BIT⟩ else none, 0⟩

/-- A state whose cell 3 holds the value `{2, UNDEFINED}` (payload 2, the raw
encoding of `ADDRESS_OF_A_BIT`). -/
def stC : St := ⟨fun a => if a = 3 then some ⟨2, .UNDEFINED⟩ else none, 0⟩

/-- A state whose jump register holds 2 (reachable, e.g. by running
`THE JUMP REGISTER EQUALS ONE ZERO`). -/
def stJ : St := ⟨fun _ => none, 2⟩

/-- A state whose jump register holds 5 (reachable, e.g. by running
`THE JUMP REGISTER EQUALS ONE ZERO ONE`). -/
def stJ5 : St := ⟨fun _ => none, 5⟩

/-! ## C1 -/

/-- **C1.** The claim states that a NAND node applied to two Bit-kind
operands yields `{ 1 - (left.payload AND right.payload), Bit }`, with truth
table (0,0)→1, (0,1)→1, (1,0)→1, (1,1)→0.  The code instead computes the
C bitwise complement `~(left & right)` with no mask: on two Bit operands
holding 0 (memory cells 0 and 1 of `stB`) the result payload is `-1`, and on
two Bit operands holding 1 (state `stB2`) it is `-2` — never 1 or 0.  The
resulting value `{-1, Bit}` is moreover rejected by `memory_write`'s own
`Illegal value` assertion, so the code contradicts its own invariant. -/
theorem c1_nand_complement_not_one_minus_and :
    (Expr.expr1 (.var 0) (.var 1)).value stB = .ok ⟨-1, ValueType.BIT⟩
    ∧ (Expr.expr1 (.var 0) (.var 1)).value stB2 = .ok ⟨-2, ValueType.BIT⟩
    ∧ (Expr.var 0).value stB = .ok ⟨0, ValueType.BIT⟩
    ∧ (Expr.var 1).value stB = .ok ⟨0, ValueType.BIT⟩
    ∧ (memory_write stB 2 ⟨-1, ValueType.BIT⟩).isOk = false :=
  ⟨rfl, rfl, rfl, rfl, rfl⟩

/-! ## C2 -/

/-- **C2.** The claim states that `THE ADDRESS OF` succeeds on every child
evaluating to a non-negative ordinary address and fails on the jump
register's address.  The failure half holds (third conjunct), but for the
non-negative address 2 the code raises the runtime error `"The THE ADDRESS
OF operator requires a bit value."`: `Expression2Node::value` compares the
child's *payload* with the raw enum encoding `ADDRESS_OF_A_BIT` (= 2)
instead of testing the kind tag, so the ordinary address 2 is rejected.
Address 0 succeeds as claimed (second conjunct). -/
theorem c2_address_of_payload_two_rejected :
    (Expr.expr2 (.expr5 2)).value st0
        = .error "The THE ADDRESS OF operator requires a bit value."
    ∧ (Expr.expr2 (.expr5 0)).value st0 = .ok ⟨0, ValueType.ADDRESS_OF_A_BIT⟩
    ∧ (Expr.expr2 (.expr5 (-1))).value st0
        = .error "The THE ADDRESS OF operator can't be used with the jump register." :=
  ⟨rfl, rfl, rfl⟩

/-! ## C6 -/

/-- **C6.** The claim states that a NAND node with a right operand fails
iff at least one operand's *kind* is not Bit, and succeeds on two Bit-kind
operands.  Both directions are false: `ZERO NAND ZERO` has two operands of
kind Undefined (payload 0) — the claim demands failure — yet the code
succeeds (returning `{-1, Bit}`), because `Expression1Node::value` compares
the *payloads* against the raw encoding `ADDRESS_OF_A_BIT` (= 2); and with
the jump register holding 2 (state `stJ`), `THE JUMP REGISTER NAND THE JUMP
REGISTER` has two operands of kind Bit (payload 2) — the claim demands
success — yet the code fails. -/
theorem c6_nand_error_checks_payload_not_kind :
    (Expr.expr5 0).value st0 = .ok ⟨0, ValueType.UNDEFINED⟩
    ∧ (⟨0, ValueType.UNDEFINED⟩ : Value).type ≠ ValueType.BIT
    ∧ (Expr.expr1 (.expr5 0) (.expr5 0)).value st0 = .ok ⟨-1, ValueType.BIT⟩
    ∧ (Expr.var (-1)).value stJ = .ok ⟨2, ValueType.BIT⟩
    ∧ (Expr.expr1 (.var (-1)) (.var (-1))).value stJ
        = .error "The NAND operator requires bit values." :=
  ⟨rfl, by decide, rfl, rfl, rfl⟩

/-! ## C3 -/

/-- **C3 counterexample.** The claim quantifies over "every address x at or
above the reserved minimum address" (i.e. x ≥ -1) and asserts that
`THE VALUE AT (THE ADDRESS OF x)` returns the content of cell x.  It fails:
at the reserved minimum -1 itself `THE ADDRESS OF` raises the jump-register
error although cell -1 is readable (last conjunct); at x = 1 and x = 2 the
payload-versus-enum-encoding comparisons (`BIT` = 1 in `Expression4Node`,
`ADDRESS_OF_A_BIT` = 2 in `Expression2Node`) raise runtime errors; and at
x = 3 in a state whose cell 3 holds payload 2 (`stC`), the result check
`result.value == ADDRESS_OF_A_BIT` rejects the stored content although the
cell is readable. -/
theorem c3_roundtrip_counterexample :
    ((Expr.expr4 (.expr2 (.expr5 (-1)))).value st0).isOk = false
    ∧ ((Expr.expr4 (.expr2 (.expr5 1))).value st0).isOk = false
    ∧ ((Expr.expr4 (.expr2 (.expr5 2))).value st0).isOk = false
    ∧ ((Expr.expr4 (.expr2 (.expr5 3))).value stC).isOk = false
    ∧ memory_read st0 (-1) = .ok ⟨0, ValueType.BIT⟩
    ∧ memory_read stC 3 = .ok ⟨2, ValueType.UNDEFINED⟩ :=
  ⟨rfl, rfl, rfl, rfl, rfl, rfl⟩

/-- **C3 (amended).** For every address x ≥ 0 other than 1 and 2 (the raw
enum encodings of `BIT` and `ADDRESS_OF_A_BIT`), if the current content of
memory cell x does not have payload 2, then `THE VALUE AT (THE ADDRESS OF
x)` evaluates to exactly that content — the round-trip through one level of
indirection holds on this restricted domain. -/
theorem c3_roundtrip_amended (st : St) (x : Int) (v : Value)
    (hx0 : 0 ≤ x) (hx1 : x ≠ 1) (hx2 : x ≠ 2)
    (hread : memory_read st x = .ok v)
    (hv : v.value ≠ ValueType.ADDRESS_OF_A_BIT.toInt) :
    (Expr.expr4 (.expr2 (.expr5 x))).value st = .ok v := by
  have c1 : ¬(x = ValueType.ADDRESS_OF_A_BIT.toInt) := hx2
  have c2 : ¬(x < jump_register_address) := by
    simp only [jump_register_address]; omega
  have c3 : ¬(x = jump_register_address) := by
    simp only [jump_register_address]; omega
  have c4 : ¬(x = ValueType.BIT.toInt) := hx1
  have c5 : ¬(x < 0) := by omega
  simp only [Expr.value, c1, c2, c3, c4, c5, if_false, if_neg, hread, hv]

/-- Witness for `c3_roundtrip_amended` at x = 0 in the fresh state. -/
theorem c3_roundtrip_amended_witness :
    (Expr.expr4 (.expr2 (.expr5 0))).value st0 = .ok ⟨0, ValueType.UNDEFINED⟩ :=
  c3_roundtrip_amended st0 0 ⟨0, ValueType.UNDEFINED⟩ (by decide) (by decide)
    (by decide) rfl (by decide)

/-! ## C4 -/

/-- **C4 counterexample.** `THE JUMP REGISTER EQUALS ONE ZERO ONE` assigns
the constant `{5, UNDEFINED}` to the jump register: `memory_write` only
rejects out-of-range payloads for values of kind `BIT` and only rejects the
kind `ADDRESS_OF_A_BIT` at the jump-register address, so the Undefined-kind
payload 5 is stored without any runtime error, and the jump register then
holds 5 ∉ {0,1}. -/
theorem c4_jump_register_counterexample :
    memory_write st0 jump_register_address ⟨5, ValueType.UNDEFINED⟩
        = .ok ⟨st0.memory, 5⟩
    ∧ AssignmentNode.run ⟨jump_register_address, none, .expr5 5⟩ st0
        = .ok ⟨st0.memory, 5⟩
    ∧ ¬((5 : Int) = 0 ∨ (5 : Int) = 1) :=
  ⟨rfl, rfl, by decide⟩

/-- **C4 (amended).** Every write to the jump register's reserved address
that completes without a runtime error stores a value whose kind is not
`ADDRESS_OF_A_BIT` and leaves the rest of memory untouched; a write of a
*Bit-kind* value stores a payload in {0,1}, but a write of an
Undefined-kind value may store an arbitrary payload, so the jump register's
content is not in general confined to {0,1}. -/
theorem c4_jump_register_amended (st : St) (v : Value) (st' : St)
    (h : memory_write st jump_register_address v = .ok st') :
    v.type ≠ ValueType.ADDRESS_OF_A_BIT
    ∧ st'.jump_register = v.value
    ∧ (v.type = ValueType.BIT → st'.jump_register = 0 ∨ st'.jump_register = 1)
    ∧ st'.memory = st.memory := by
  unfold memory_write at h
  split at h
  · exact absurd h (by simp)
  · rename_i hnot
    rw [if_pos rfl] at h
    split at h
    · exact absurd h (by simp)
    · rename_i haob
      have hst : st' = { st with jump_register := v.value } := by
        cases h; rfl
      subst hst
      refine ⟨haob, rfl, ?_, rfl⟩
      intro hbit
      by_contra hc
      push_neg at hc
      exact hnot ⟨hbit, hc.1, hc.2⟩

/-- Witness for `c4_jump_register_amended`: the legal write of the Bit 1. -/
theorem c4_jump_register_amended_witness :
    (⟨1, ValueType.BIT⟩ : Value).type ≠ ValueType.ADDRESS_OF_A_BIT
    ∧ (St.mk st0.memory 1).jump_register = (⟨1, ValueType.BIT⟩ : Value).value
    ∧ ((⟨1, ValueType.BIT⟩ : Value).type = ValueType.BIT →
        (St.mk st0.memory 1).jump_register = 0 ∨ (St.mk st0.memory 1).jump_register = 1)
    ∧ (St.mk st0.memory 1).memory = st0.memory :=
  c4_jump_register_amended st0 ⟨1, ValueType.BIT⟩ (St.mk st0.memory 1) rfl

/-! ## C10 -/

/-- **C10 counterexample.** The claim says an expression-target assignment
raises a runtime error *only when* the target expression's payload is below
the reserved minimum address.  Refutation: with the jump register holding 5
(state `stJ5`, reachable via `THE JUMP REGISTER EQUALS ONE ZERO ONE`), the
assignment whose target expression is the constant 5 and whose right-hand
side is `THE JUMP REGISTER` fails with `Illegal value: 5` although the
target payload 5 is not below the reserved minimum; and an assignment whose
target expression `ZERO NAND ZERO` evaluates to payload -1 (the
jump-register address, not below the minimum) fails when the assigned value
has kind `ADDRESS_OF_A_BIT`. -/
theorem c10_expression_target_counterexample :
    (AssignmentNode.run ⟨int_min, some (.expr5 5), .var (-1)⟩ stJ5).isOk = false
    ∧ (Expr.expr5 5).value stJ5 = .ok ⟨5, ValueType.UNDEFINED⟩
    ∧ ¬((5 : Int) < jump_register_address)
    ∧ (AssignmentNode.run
        ⟨int_min, some (.expr1 (.expr5 0) (.expr5 0)), .expr2 (.expr5 0)⟩ st0).isOk = false
    ∧ (Expr.expr1 (.expr5 0) (.expr5 0)).value st0 = .ok ⟨-1, ValueType.BIT⟩
    ∧ (Expr.expr2 (.expr5 0)).value st0 = .ok ⟨0, ValueType.ADDRESS_OF_A_BIT⟩
    ∧ ¬((-1 : Int) < jump_register_address) :=
  ⟨rfl, rfl, by decide, rfl, rfl, rfl, by decide⟩

/-- **C10 (amended).** For every assignment whose target was parsed as a
general expression (`address` keeps its `INT_MIN` default, so the
expression branch of `AssignmentNode::run` is taken), the target
expression's integer payload is used as the write address regardless of the
target value's kind (the equation below never consults `va.type`), and the
write raises a runtime error exactly when the assigned value is Bit-kind
with a payload outside {0,1}, or the target payload equals the
jump-register address while the assigned value has kind `ADDRESS_OF_A_BIT`,
or the target payload is below the reserved minimum address. -/
theorem c10_expression_target_amended (st : St) (ae e : Expr) (va ve : Value)
    (hae : ae.value st = .ok va) (he : e.value st = .ok ve) :
    AssignmentNode.run ⟨int_min, some ae, e⟩ st = memory_write st va.value ve
    ∧ ((memory_write st va.value ve).isOk = true ↔
        ¬((ve.type = ValueType.BIT ∧ ve.value ≠ 0 ∧ ve.value ≠ 1)
          ∨ (va.value = jump_register_address ∧ ve.type = ValueType.ADDRESS_OF_A_BIT)
          ∨ va.value < jump_register_address)) := by
  constructor
  · unfold AssignmentNode.run
    have hlt : ¬ ((⟨int_min, some ae, e⟩ : AssignmentNode).address ≥ jump_register_address) := by
      show ¬ ((int_min : Int) ≥ jump_register_address)
      decide
    rw [if_neg hlt]
    simp only [hae, he]
  · unfold memory_write
    split
    · rename_i hcond
      simp [Except.isOk, Except.toBool, hcond]
    · rename_i hcond1
      split
      · rename_i heq
        split
        · rename_i haob
          simp [Except.isOk, Except.toBool, heq, haob]
        · rename_i haob
          simp only [Except.isOk, Except.toBool]
          simp [hcond1, haob, heq]
      · rename_i hne
        split
        · rename_i hgt
          simp only [Except.isOk, Except.toBool]
          simp only [jump_register_address] at *
          constructor
          · intro _
            intro hor
            rcases hor with h1 | h2 | h3
            · exact hcond1 h1
            · exact hne h2.1
            · omega
          · intro _; trivial
        · rename_i hngt
          simp only [Except.isOk, Except.toBool]
          simp only [jump_register_address] at *
          constructor
          · intro hfalse; simp at hfalse
          · intro hnor
            exfalso; apply hnor
            right; right; omega

/-- Witness for `c10_expression_target_amended`: target expression constant
5, assigned value the constant 0, in the fresh state — the write succeeds. -/
theorem c10_expression_target_amended_witness :
    AssignmentNode.run ⟨int_min, some (.expr5 5), .expr5 0⟩ st0
        = memory_write st0 (5 : Int) ⟨0, ValueType.UNDEFINED⟩
    ∧ ((memory_write st0 (5 : Int) ⟨0, ValueType.UNDEFINED⟩).isOk = true ↔
        ¬(((⟨0, ValueType.UNDEFINED⟩ : Value).type = ValueType.BIT
            ∧ (⟨0, ValueType.UNDEFINED⟩ : Value).value ≠ 0
            ∧ (⟨0, ValueType.UNDEFINED⟩ : Value).value ≠ 1)
          ∨ ((5 : Int) = jump_register_address
            ∧ (⟨0, ValueType.UNDEFINED⟩ : Value).type = ValueType.ADDRESS_OF_A_BIT)
          ∨ (5 : Int) < jump_register_address)) :=
  c10_expression_target_amended st0 (.expr5 5) (.expr5 0)
    ⟨5, ValueType.UNDEFINED⟩ ⟨0, ValueType.UNDEFINED⟩ rfl rfl

/-! ## C7 -/

/-- **C7.** Next-line resolution order of `GotoNode::next_line_number` and
the `CodeNode::run` loop: (1) a direct target (`next.value > -1`, of the
`BIT` type every parsed node carries) is used first, ignoring the arms and
the jump register; (2)/(3) otherwise the zero-arm resp. one-arm is taken
when its target is present and the jump register holds the matching bit;
(4) with no match the resolution yields -1; (5) a line without a goto
halts; (6) a resolved target ≥ 0 that exists in the program continues
there; (7) a resolved target ≥ 0 missing from the program is the fatal
`"No line exists with number …"` error; (8) a resolved value < 0 halts. -/
theorem c7_next_line_resolution :
    (∀ (g : GotoNode) (st : St), g.next.value > -1 → g.next.type = ValueType.BIT →
        g.next_line_number st = .ok g.next.value)
    ∧ (∀ (g : GotoNode) (st : St), ¬(g.next.value > -1) → g.next_if_zero > -1 →
        st.jump_register = 0 → g.next_line_number st = .ok g.next_if_zero)
    ∧ (∀ (g : GotoNode) (st : St), ¬(g.next.value > -1) → g.next_if_one > -1 →
        st.jump_register = 1 → g.next_line_number st = .ok g.next_if_one)
    ∧ (∀ (g : GotoNode) (st : St), ¬(g.next.value > -1) →
        ¬(g.next_if_zero > -1 ∧ st.jump_register = 0) →
        ¬(g.next_if_one > -1 ∧ st.jump_register = 1) →
        g.next_line_number st = .ok (-1))
    ∧ (∀ (code : CodeNode) (st : St), resolve_next code none st = .ok none)
    ∧ (∀ (code : CodeNode) (g : GotoNode) (st : St) (n : Int),
        g.next_line_number st = .ok n → n ≥ 0 → code.hasLine n = true →
        resolve_next code (some g) st = .ok (some n))
    ∧ (∀ (code : CodeNode) (g : GotoNode) (st : St) (n : Int),
        g.next_line_number st = .ok n → n ≥ 0 → code.hasLine n = false →
        resolve_next code (some g) st
          = .error ("No line exists with number " ++ toString n ++ "."))
    ∧ (∀ (code : CodeNode) (g : GotoNode) (st : St) (n : Int),
        g.next_line_number st = .ok n → n < 0 →
        resolve_next code (some g) st = .ok none) := by
  refine ⟨?_, ?_, ?_, ?_, ?_, ?_, ?_, ?_⟩
  · intro g st h1 h2
    unfold GotoNode.next_line_number
    rw [if_pos h1]
    rw [if_neg (by rw [h2]; intro hc; cases hc)]
  · intro g st h1 h2 h3
    unfold GotoNode.next_line_number
    rw [if_neg h1, if_pos ⟨h2, h3⟩]
  · intro g st h1 h2 h3
    unfold GotoNode.next_line_number
    rw [if_neg h1, if_neg (by simp [h3]), if_pos ⟨h2, h3⟩]
  · intro g st h1 h2 h3
    unfold GotoNode.next_line_number
    rw [if_neg h1, if_neg h2, if_neg h3]
  · intro code st; rfl
  · intro code g st n h1 h2 h3
    simp only [resolve_next, h1]
    simp [h2, h3]
  · intro code g st n h1 h2 h3
    simp only [resolve_next, h1]
    simp [h2, h3]
  · intro code g st n h1 h2
    simp only [resolve_next, h1]
    simp [show ¬ (n ≥ 0) by omega]

/-- A one-line program (line number 7) used by the C7 witness. -/
def code7 : CodeNode := ⟨[((7 : Int), ⟨7, .command 0, none⟩)], 7⟩

/-- A state whose jump register holds 1. -/
def stjr1 : St := ⟨fun _ => none, 1⟩

/-- Witness for `c7_next_line_resolution`, instantiating each conjunct at
concrete gotos, states and programs. -/
theorem c7_next_line_resolution_witness :
    (GotoNode.mk ⟨7, ValueType.BIT⟩ (-1) (-1)).next_line_number st0 = .ok 7
    ∧ (GotoNode.mk ⟨-1, ValueType.BIT⟩ 4 (-1)).next_line_number st0 = .ok 4
    ∧ (GotoNode.mk ⟨-1, ValueType.BIT⟩ (-1) 5).next_line_number stjr1 = .ok 5
    ∧ (GotoNode.mk ⟨-1, ValueType.BIT⟩ (-1) (-1)).next_line_number st0 = .ok (-1)
    ∧ resolve_next code7 none st0 = .ok none
    ∧ resolve_next code7 (some (GotoNode.mk ⟨7, ValueType.BIT⟩ (-1) (-1))) st0
        = .ok (some 7)
    ∧ resolve_next code7 (some (GotoNode.mk ⟨8, ValueType.BIT⟩ (-1) (-1))) st0
        = .error ("No line exists with number " ++ toString (8 : Int) ++ ".")
    ∧ resolve_next code7 (some (GotoNode.mk ⟨-1, ValueType.BIT⟩ (-1) (-1))) st0
        = .ok none :=
  ⟨c7_next_line_resolution.1 _ st0 (by decide) rfl,
   c7_next_line_resolution.2.1 _ st0 (by decide) (by decide) rfl,
   c7_next_line_resolution.2.2.1 _ stjr1 (by decide) (by decide) rfl,
   c7_next_line_resolution.2.2.2.1 _ st0 (by decide) (by decide) (by decide),
   c7_next_line_resolution.2.2.2.2.1 code7 st0,
   c7_next_line_resolution.2.2.2.2.2.1 code7 _ st0 7 rfl (by decide) rfl,
   c7_next_line_resolution.2.2.2.2.2.2.1 code7 _ st0 8 rfl (by decide) rfl,
   c7_next_line_resolution.2.2.2.2.2.2.2 code7 _ st0 (-1) rfl (by decide)⟩

/-!
## The scanner and the parser (for C5, C8, C9)

The source scans a `string* input` with a cursor `position`; the embedding
represents the not-yet-consumed suffix `input[position..]` as a `List Char`.
`show_parser_error` (which exits) is modelled as `Option.none`.
-/

/-- `isspace` (C locale) as used by `is_whitespace` in the source. -/
def is_whitespace (c : Char) : Bool :=
  c == ' ' || c == '\t' || c == '\n' || c == '\x0b' || c == '\x0c' || c == '\r'

/-- `void skip_whitespace()` from `src/Main.cpp`. -/
def skip_whitespace : List Char → List Char
  | [] => []
  | c :: cs => if is_whitespace c then skip_whitespace cs else c :: cs

/-- The per-character loop of `bool check(string symbol)`: for each symbol
character, skip whitespace (returning false when the input runs out) and
compare. -/
def checkAux : List Char → List Char → Bool
  | [], _ => true
  | c :: cs, s =>
    match skip_whitespace s with
    | [] => false
    | x :: xs => if x = c then checkAux cs xs else false

/-- `bool check(string symbol)` from `src/Main.cpp`: returns false
immediately when `position >= length`, otherwise runs the matching loop. -/
def check (symbol : List Char) (s : List Char) : Bool :=
  match s with
  | [] => false
  | _ => checkAux symbol s

/-- `void consume(string symbol)` from `src/Main.cpp`: for each symbol
character, skip whitespace and consume the character, raising a parse error
(modelled as `none`) on mismatch or end of input. -/
def consume : List Char → List Char → Option (List Char)
  | [], s => some s
  | c :: cs, s =>
    match skip_whitespace s with
    | [] => none
    | x :: xs => if x = c then consume cs xs else none

/-- Keyword symbols from the `Symbols` region of `src/Main.cpp` that the
claims exercise. -/
def GOTO : List Char := "GOTO".data

/-- `"IFTHEJUMPREGISTERIS"`. -/
def IF_THE_JUMP_REGISTER_IS : List Char := "IFTHEJUMPREGISTERIS".data

/-- `"EQUALTO"`. -/
def EQUAL_TO : List Char := "EQUALTO".data

/-- `"VARIABLE"`. -/
def VARIABLE : List Char := "VARIABLE".data

/-- `"ZERO"`. -/
def ZERO : List Char := "ZERO".data

/-- `"ONE"`. -/
def ONE : List Char := "ONE".data

/-- `int parse_bit()` from `src/Main.cpp`. -/
def parse_bit (s : List Char) : Option (Int × List Char) :=
  let s1 := skip_whitespace s
  if check ZERO s1 then
    match consume ZERO s1 with
    | none => none
    | some s2 => some (0, s2)
  else if check ONE s1 then
    match consume ONE s1 with
    | none => none
    | some s2 => some (1, s2)
  else none

/-- Two's-complement reduction of an integer into the 32-bit range
`[-2^31, 2^31)`, the value set of the source's `int`. -/
def wrap32 (n : Int) : Int := (n + 2 ^ 31) % 2 ^ 32 - 2 ^ 31

/-- One accumulator step of `parse_bits`: the source computes
`bits = (bits << 1) | bit` on a 32-bit `int`.  For the `bit ∈ {0,1}`
produced by `parse_bit` the shift-or equals `2 * bits + bit` at the bit
level (the shifted value is even), and the `int`'s overflow behaviour is
modelled as two's-complement wrapping via `wrap32`. -/
def bits_step (bits bit : Int) : Int := wrap32 (2 * bits + bit)

/-- The `while (check(ZERO) || check(ONE))` loop of `int parse_bits()`,
accumulating with the 32-bit step `bits_step`.  The loop is given explicit
fuel; every iteration consumes at least one input character, so the fuel
`s.length` used by `parse_bits` never runs out before the loop's own exit
condition fires. -/
def parse_bits_loop : Nat → Int → List Char → Option (Int × List Char)
  | 0, bits, s => some (bits, s)
  | fuel + 1, bits, s =>
    if check ZERO s || check ONE s then
      match parse_bit s with
      | none => none
      | some (bit, s1) => parse_bits_loop fuel (bits_step bits bit) s1
    else some (bits, s)

/-- `int parse_bits()` from `src/Main.cpp`. -/
def parse_bits (s : List Char) : Option (Int × List Char) :=
  let s0 := skip_whitespace s
  match parse_bit s0 with
  | none => none
  | some (bit, s1) => parse_bits_loop s1.length bit s1

/-- The tail of `GotoNode* parse_goto()` after the optional `VARIABLE`
marker: parse the first address, then either the conditional form (guard
bit(s), optional second clause, parse error when both clauses guard the
same bit) or the unconditional form (`node->next.value = address1`). -/
def parse_goto_rest (s2 : List Char) : Option (GotoNode × List Char) :=
  match parse_bits s2 with
  | none => none
  | some (address1, s3) =>
    if check IF_THE_JUMP_REGISTER_IS s3 then
      match consume IF_THE_JUMP_REGISTER_IS s3 with
      | none => none
      | some s4 =>
        match (if check EQUAL_TO s4 then consume EQUAL_TO s4 else some s4) with
        | none => none
        | some s5 =>
          match parse_bit s5 with
          | none => none
          | some (bit1, s6) =>
            let node1 : GotoNode :=
              if bit1 = 0 then { gotoDefault with next_if_zero := address1 }
              else { gotoDefault with next_if_one := address1 }
            if check GOTO s6 then
              match consume GOTO s6 with
              | none => none
              | some s7 =>
                match parse_bits s7 with
                | none => none
                | some (address2, s8) =>
                  match consume IF_THE_JUMP_REGISTER_IS s8 with
                  | none => none
                  | some s9 =>
                    match (if check EQUAL_TO s9 then consume EQUAL_TO s9 else some s9) with
                    | none => none
                    | some s10 =>
                      match parse_bit s10 with
                      | none => none
                      | some (bit2, s11) =>
                        if bit1 = bit2 then none
                        else
                          let node2 : GotoNode :=
                            if bit2 = 0 then { node1 with next_if_zero := address2 }
                            else { node1 with next_if_one := address2 }
                          some (node2, s11)
            else some (node1, s6)
    else some ({ gotoDefault with next := ⟨address1, ValueType.BIT⟩ }, s3)

/-- `GotoNode* parse_goto()` from `src/Main.cpp`.  After consuming the
optional `VARIABLE` marker the source executes
`node->next.type == ADDRESS_OF_A_BIT;` — a *comparison*, not an
assignment, whose result is discarded; the node is therefore unchanged and
the embedding performs no update there. -/
def parse_goto (s : List Char) : Option (GotoNode × List Char) :=
  match consume GOTO s with
  | none => none
  | some s1 =>
    match (if check VARIABLE s1 then consume VARIABLE s1 else some s1) with
    | none => none
    | some s2 => parse_goto_rest s2

/-! ### Scanner lemmas -/

theorem skip_whitespace_cons (c : Char) (t : List Char) (h : is_whitespace c = false) :
    skip_whitespace (c :: t) = c :: t := by
  simp [skip_whitespace, h]

theorem checkAux_append (sym rest : List Char)
    (h : ∀ c ∈ sym, is_whitespace c = false) :
    checkAux sym (sym ++ rest) = true := by
  induction sym with
  | nil => rfl
  | cons c cs ih =>
    have hc : is_whitespace c = false := h c (List.mem_cons_self c cs)
    simp only [List.cons_append, checkAux, skip_whitespace_cons c (cs ++ rest) hc]
    rw [if_pos trivial]
    exact ih (fun d hd => h d (List.mem_cons_of_mem c hd))

theorem check_append (sym rest : List Char) (hne : sym ≠ [])
    (h : ∀ c ∈ sym, is_whitespace c = false) :
    check sym (sym ++ rest) = true := by
  cases sym with
  | nil => exact absurd rfl hne
  | cons c cs =>
    simp only [check, List.cons_append]
    exact checkAux_append (c :: cs) rest h

theorem consume_append (sym rest : List Char)
    (h : ∀ c ∈ sym, is_whitespace c = false) :
    consume sym (sym ++ rest) = some rest := by
  induction sym with
  | nil => rfl
  | cons c cs ih =>
    have hc : is_whitespace c = false := h c (List.mem_cons_self c cs)
    simp only [List.cons_append, consume, skip_whitespace_cons c (cs ++ rest) hc]
    rw [if_pos trivial]
    exact ih (fun d hd => h d (List.mem_cons_of_mem c hd))

theorem check_head_ne (c : Char) (cs : List Char) (d : Char) (t : List Char)
    (hw : is_whitespace d = false) (hne : d ≠ c) :
    check (c :: cs) (d :: t) = false := by
  simp only [check, checkAux, skip_whitespace_cons d t hw]
  rw [if_neg hne]

theorem check_nil (sym : List Char) : check sym [] = false := rfl

/-! ### Bit-string token sequences -/

/-- The text of one bit token. -/
def bit_tok (b : Bool) : List Char := if b then ONE else ZERO

/-- The integer a single bit token parses to. -/
def bitInt (b : Bool) : Int := if b then 1 else 0

/-- The concatenated text of a sequence of ZERO/ONE tokens. -/
def render_bits : List Bool → List Char
  | [] => []
  | b :: bs => bit_tok b ++ render_bits bs

/-- The value the program's `parse_bits` accumulates for a bit sequence
read most-significant-bit first: the binary value folded through the
32-bit step `bits_step`. -/
def bits_value (bs : List Bool) : Int :=
  bs.foldl (fun acc b => bits_step acc (bitInt b)) 0

/-- The exact (unbounded) binary integer value of a bit sequence read
most-significant-bit first. -/
def bits_value_exact (bs : List Bool) : Int :=
  bs.foldl (fun acc b => 2 * acc + bitInt b) 0

theorem parse_bit_tok (b : Bool) (t : List Char) :
    parse_bit (bit_tok b ++ t) = some (bitInt b, t) := by
  cases b
  · have hsw : skip_whitespace (ZERO ++ t) = ZERO ++ t :=
      skip_whitespace_cons 'Z' _ (by decide)
    have hck : check ZERO (ZERO ++ t) = true :=
      check_append ZERO t (by decide) (by decide)
    have hco : consume ZERO (ZERO ++ t) = some t :=
      consume_append ZERO t (by decide)
    simp only [bit_tok, if_neg Bool.false_ne_true, parse_bit, hsw, hck, if_true, hco, bitInt]
  · have hsw : skip_whitespace (ONE ++ t) = ONE ++ t :=
      skip_whitespace_cons 'O' _ (by decide)
    have hck0 : check ZERO (ONE ++ t) = false :=
      check_head_ne 'Z' _ 'O' _ (by decide) (by decide)
    have hck : check ONE (ONE ++ t) = true :=
      check_append ONE t (by decide) (by decide)
    have hco : consume ONE (ONE ++ t) = some t :=
      consume_append ONE t (by decide)
    simp only [bit_tok, if_true, parse_bit, hsw, hck0, hck, hco, bitInt]
    simp

/-- A symbol whose first character is neither 'Z' nor 'O' never matches at
the start of a rendered bit sequence. -/
theorem check_render_head (c : Char) (cs : List Char) (bs : List Bool) (rest : List Char)
    (hbs : bs ≠ []) (hw : c ≠ 'Z') (ho : c ≠ 'O') :
    check (c :: cs) (render_bits bs ++ rest) = false := by
  cases bs with
  | nil => exact absurd rfl hbs
  | cons b tl =>
    cases b
    · show check (c :: cs) ((ZERO ++ render_bits tl) ++ rest) = false
      rw [List.append_assoc]
      exact check_head_ne c cs 'Z' _ (by decide) (Ne.symm hw)
    · show check (c :: cs) ((ONE ++ render_bits tl) ++ rest) = false
      rw [List.append_assoc]
      exact check_head_ne c cs 'O' _ (by decide) (Ne.symm ho)

/-- The `while` loop of `parse_bits` consumes exactly a rendered bit
sequence, provided what follows does not begin with a bit token. -/
theorem parse_bits_loop_render (bs : List Bool) : ∀ (fuel : Nat) (acc : Int) (rest : List Char),
    bs.length ≤ fuel → check ZERO rest = false → check ONE rest = false →
    parse_bits_loop fuel acc (render_bits bs ++ rest)
      = some (bs.foldl (fun a b => bits_step a (bitInt b)) acc, rest) := by
  induction bs with
  | nil =>
    intro fuel acc rest _ h0 h1
    cases fuel with
    | zero => simp [render_bits, parse_bits_loop]
    | succ f =>
      simp only [render_bits, List.nil_append, parse_bits_loop, h0, h1, List.foldl_nil]
      simp
  | cons b tl ih =>
    intro fuel acc rest hf h0 h1
    cases fuel with
    | zero => simp at hf
    | succ f =>
      have hassoc : render_bits (b :: tl) ++ rest = bit_tok b ++ (render_bits tl ++ rest) := by
        show (bit_tok b ++ render_bits tl) ++ rest = _
        rw [List.append_assoc]
      rw [hassoc]
      have hpb : parse_bit (bit_tok b ++ (render_bits tl ++ rest))
          = some (bitInt b, render_bits tl ++ rest) := parse_bit_tok b _
      have hlen : tl.length ≤ f := by simp at hf; omega
      cases b
      · have hck : check ZERO (bit_tok false ++ (render_bits tl ++ rest)) = true :=
          check_append ZERO _ (by decide) (by decide)
        simp only [parse_bits_loop, hck, Bool.true_or, if_true, hpb]
        rw [ih f (bits_step acc (bitInt false)) rest hlen h0 h1]
        simp [bitInt]
      · have hck0 : check ZERO (bit_tok true ++ (render_bits tl ++ rest)) = false := by
          show check ZERO (ONE ++ (render_bits tl ++ rest)) = false
          exact check_head_ne 'Z' _ 'O' _ (by decide) (by decide)
        have hck1 : check ONE (bit_tok true ++ (render_bits tl ++ rest)) = true :=
          check_append ONE _ (by decide) (by decide)
        simp only [parse_bits_loop, hck0, hck1, Bool.false_or, if_true, hpb]
        rw [ih f (bits_step acc (bitInt true)) rest hlen h0 h1]
        simp [bitInt]

theorem render_bits_length (bs : List Bool) : bs.length ≤ (render_bits bs).length := by
  induction bs with
  | nil => simp [render_bits]
  | cons b tl ih =>
    show (b :: tl).length ≤ (bit_tok b ++ render_bits tl).length
    rw [List.length_append]
    cases b <;> simp [bit_tok, ZERO, ONE] <;> omega

/-- `parse_bits` on a rendered bit sequence followed by anything that does
not begin with a bit token returns the program's accumulated value
`bits_value` (the MSB-first binary value folded through the 32-bit step)
and leaves the continuation untouched. -/
theorem parse_bits_render (bs : List Bool) (rest : List Char) (hne : bs ≠ [])
    (h0 : check ZERO rest = false) (h1 : check ONE rest = false) :
    parse_bits (render_bits bs ++ rest) = some (bits_value bs, rest) := by
  cases bs with
  | nil => exact absurd rfl hne
  | cons b tl =>
    have hassoc : render_bits (b :: tl) ++ rest = bit_tok b ++ (render_bits tl ++ rest) := by
      show (bit_tok b ++ render_bits tl) ++ rest = _
      rw [List.append_assoc]
    have hsw : skip_whitespace (bit_tok b ++ (render_bits tl ++ rest))
        = bit_tok b ++ (render_bits tl ++ rest) := by
      cases b
      · exact skip_whitespace_cons 'Z' _ (by decide)
      · exact skip_whitespace_cons 'O' _ (by decide)
    have hpb : parse_bit (bit_tok b ++ (render_bits tl ++ rest))
        = some (bitInt b, render_bits tl ++ rest) := parse_bit_tok b _
    have hfuel : tl.length ≤ (render_bits tl ++ rest).length := by
      rw [List.length_append]
      have := render_bits_length tl
      omega
    rw [hassoc]
    simp only [parse_bits, hsw, hpb]
    rw [parse_bits_loop_render tl _ (bitInt b) rest hfuel h0 h1]
    have hb : bits_step 0 (bitInt b) = bitInt b := by cases b <;> decide
    simp only [bits_value, List.foldl_cons, hb]

/-! ## C8 -/

theorem wrap32_eq_self (n : Int) (h0 : 0 ≤ n) (h1 : n < 2 ^ 31) : wrap32 n = n := by
  unfold wrap32
  omega

/-- The exact MSB-first fold never decreases below its non-negative
starting accumulator. -/
theorem le_foldl_exact (tl : List Bool) : ∀ a : Int, 0 ≤ a →
    a ≤ tl.foldl (fun x b => 2 * x + bitInt b) a := by
  induction tl with
  | nil => intro a _; simp
  | cons b tl ih =>
    intro a ha
    have hb : 0 ≤ bitInt b := by cases b <;> decide
    calc a ≤ 2 * a + bitInt b := by omega
    _ ≤ (b :: tl).foldl (fun x b => 2 * x + bitInt b) a := by
        rw [List.foldl_cons]
        exact ih (2 * a + bitInt b) (by omega)

/-- As long as the exact value stays below `2^31`, the wrapped fold agrees
with the exact fold: no intermediate accumulator overflows. -/
theorem foldl_step_eq_exact (tl : List Bool) : ∀ a : Int, 0 ≤ a →
    tl.foldl (fun x b => 2 * x + bitInt b) a < 2 ^ 31 →
    tl.foldl (fun x b => bits_step x (bitInt b)) a
      = tl.foldl (fun x b => 2 * x + bitInt b) a := by
  induction tl with
  | nil => intro a _ _; rfl
  | cons b tl ih =>
    intro a ha hlt
    rw [List.foldl_cons] at hlt
    have hb : 0 ≤ bitInt b := by cases b <;> decide
    have hmid : 2 * a + bitInt b ≤ tl.foldl (fun x b => 2 * x + bitInt b) (2 * a + bitInt b) :=
      le_foldl_exact tl (2 * a + bitInt b) (by omega)
    have hw : bits_step a (bitInt b) = 2 * a + bitInt b := by
      unfold bits_step
      exact wrap32_eq_self _ (by omega) (by omega)
    rw [List.foldl_cons, List.foldl_cons, hw]
    exact ih (2 * a + bitInt b) (by omega) hlt

set_option maxRecDepth 10000 in
/-- **C8 counterexample.** The claim quantifies over *every* non-empty
ZERO/ONE token sequence, but the accumulator of `parse_bits` is a 32-bit
`int` that wraps: thirty-two ONE tokens (exact MSB-first value 2³²−1)
parse to −1, and ONE followed by thirty-one ZERO tokens (exact value 2³¹)
parses to −2³¹ — not the claimed binary values. -/
theorem c8_parse_bits_overflow_counterexample :
    parse_bits (render_bits (List.replicate 32 true)) = some (-1, [])
    ∧ bits_value_exact (List.replicate 32 true) = 4294967295
    ∧ parse_bits (render_bits (true :: List.replicate 31 false)) = some (-2147483648, [])
    ∧ bits_value_exact (true :: List.replicate 31 false) = 2147483648
    ∧ ((-1 : Int) ≠ 4294967295) :=
  ⟨by decide, by decide, by decide, by decide, by decide⟩

/-- **C8 (amended).** For every non-empty sequence of ZERO/ONE tokens,
`parse_bits` returns the MSB-first binary value of the sequence reduced
into 32-bit two's complement (the `bits_step` fold), consuming the whole
sequence; whenever the exact MSB-first value is below `2^31` — in
particular for every sequence of at most 31 tokens — the returned value is
exactly that binary value, e.g. the spaced example
`"ONE ZERO ZERO ONE ZERO"` parses to 18. -/
theorem c8_parse_bits_msb_first :
    (∀ bs : List Bool, bs ≠ [] → parse_bits (render_bits bs) = some (bits_value bs, []))
    ∧ (∀ bs : List Bool, bits_value_exact bs < 2 ^ 31 → bits_value bs = bits_value_exact bs)
    ∧ parse_bits "ONE ZERO ZERO ONE ZERO".data = some (18, []) := by
  refine ⟨?_, ?_, by decide⟩
  · intro bs hne
    have := parse_bits_render bs [] hne rfl rfl
    simpa using this
  · intro bs hlt
    exact foldl_step_eq_exact bs 0 le_rfl hlt

/-- Witness for `c8_parse_bits_msb_first` at the sequence ONE ZERO. -/
theorem c8_parse_bits_msb_first_witness :
    parse_bits (render_bits [true, false]) = some (bits_value [true, false], [])
    ∧ bits_value [true, false] = bits_value_exact [true, false]
    ∧ bits_value_exact [true, false] = 2 :=
  ⟨c8_parse_bits_msb_first.1 [true, false] (by decide),
   c8_parse_bits_msb_first.2.1 [true, false] (by decide), by decide⟩

/-- Every `GotoNode` produced by `parse_goto_rest` keeps the default
`next.type = BIT`: nothing in the parser ever stores `ADDRESS_OF_A_BIT`
there. -/
theorem parse_goto_rest_type (s2 : List Char) (node : GotoNode) (rem : List Char)
    (h : parse_goto_rest s2 = some (node, rem)) : node.next.type = ValueType.BIT := by
  unfold parse_goto_rest at h
  split at h
  · simp at h
  · split at h
    · split at h
      · simp at h
      · split at h
        · simp at h
        · split at h
          · simp at h
          · simp only [] at h
            split at h
            · split at h
              · simp at h
              · split at h
                · simp at h
                · split at h
                  · simp at h
                  · split at h
                    · simp at h
                    · split at h
                      · simp at h
                      · split at h
                        · simp at h
                        · rw [Option.some.injEq, Prod.mk.injEq] at h
                          obtain ⟨h1, _⟩ := h
                          subst h1
                          split <;> split <;> rfl
            · rw [Option.some.injEq, Prod.mk.injEq] at h
              obtain ⟨h1, _⟩ := h
              subst h1
              split <;> rfl
    · rw [Option.some.injEq, Prod.mk.injEq] at h
      obtain ⟨h1, _⟩ := h
      subst h1
      rfl

/-- Every `GotoNode` produced by `parse_goto` keeps `next.type = BIT`. -/
theorem parse_goto_type (s : List Char) (node : GotoNode) (rem : List Char)
    (h : parse_goto s = some (node, rem)) : node.next.type = ValueType.BIT := by
  unfold parse_goto at h
  split at h
  · simp at h
  · split at h
    · simp at h
    · exact parse_goto_rest_type _ node rem h

/-! ## C5 -/

/-- **C5.** `GOTO VARIABLE <bits>` parses to a node structurally identical
to `GOTO <bits>` ((a): with the `VARIABLE` marker consumed, both runs
continue identically — the flag-setting statement
`node->next.type == ADDRESS_OF_A_BIT;` is a no-op comparison); (b) no
parsed goto ever carries `next.type = ADDRESS_OF_A_BIT`; hence (c) an
unconditional goto resolves to the literal parsed line number, never
dereferencing memory. -/
theorem c5_goto_variable_no_op :
    (∀ rest : List Char, check VARIABLE rest = false →
        parse_goto (GOTO ++ (VARIABLE ++ rest)) = parse_goto (GOTO ++ rest))
    ∧ (∀ (s : List Char) (node : GotoNode) (rem : List Char),
        parse_goto s = some (node, rem) → node.next.type = ValueType.BIT)
    ∧ (∀ (g : GotoNode) (st : St), g.next.type = ValueType.BIT → g.next.value > -1 →
        g.next_line_number st = .ok g.next.value) := by
  refine ⟨?_, parse_goto_type, ?_⟩
  · intro rest hv
    have h1 : consume GOTO (GOTO ++ (VARIABLE ++ rest)) = some (VARIABLE ++ rest) :=
      consume_append _ _ (by decide)
    have h2 : consume GOTO (GOTO ++ rest) = some rest := consume_append _ _ (by decide)
    have h3 : check VARIABLE (VARIABLE ++ rest) = true :=
      check_append _ _ (by decide) (by decide)
    have h4 : consume VARIABLE (VARIABLE ++ rest) = some rest := consume_append _ _ (by decide)
    simp only [parse_goto, h1, h2, h3, h4, hv, if_true, if_false]
    simp
  · intro g st h1 h2
    unfold GotoNode.next_line_number
    rw [if_pos h2]
    rw [if_neg (by rw [h1]; intro hc; cases hc)]

/-- Witness for `c5_goto_variable_no_op`: the concrete program text
`GOTOVARIABLEONE` parses identically to `GOTOONE`, whose node carries
`next.type = BIT` and executes to the literal line number 1. -/
theorem c5_goto_variable_no_op_witness :
    parse_goto (GOTO ++ (VARIABLE ++ ONE)) = parse_goto (GOTO ++ ONE)
    ∧ (GotoNode.mk ⟨1, ValueType.BIT⟩ (-1) (-1)).next.type = ValueType.BIT
    ∧ (GotoNode.mk ⟨1, ValueType.BIT⟩ (-1) (-1)).next_line_number st0 = .ok 1 :=
  ⟨c5_goto_variable_no_op.1 ONE (by decide),
   c5_goto_variable_no_op.2.1 (GOTO ++ ONE) (GotoNode.mk ⟨1, ValueType.BIT⟩ (-1) (-1)) []
     (by decide),
   c5_goto_variable_no_op.2.2 (GotoNode.mk ⟨1, ValueType.BIT⟩ (-1) (-1)) st0 rfl (by decide)⟩

/-! ## C9 -/

/-- The program text of a two-armed conditional goto:
`GOTO <a1> IF THE JUMP REGISTER IS <g1> GOTO <a2> IF THE JUMP REGISTER IS <g2>`. -/
def cond_goto_text (a1 : List Bool) (g1 : Bool) (a2 : List Bool) (g2 : Bool) : List Char :=
  GOTO ++ (render_bits a1 ++ (IF_THE_JUMP_REGISTER_IS ++ (bit_tok g1 ++
    (GOTO ++ (render_bits a2 ++ (IF_THE_JUMP_REGISTER_IS ++ bit_tok g2))))))

/-- **C9.** Parsing a conditional goto whose two arms guard the same bit
fails with a parse error (`none`), for either guard bit and for arbitrary
non-empty arm addresses; with arms guarding 0 then 1 (resp. 1 then 0) the
parse succeeds, producing the goto with no direct target and the two arm
targets bound to the parsed addresses. -/
theorem c9_conditional_goto_guard_bits (a1 a2 : List Bool) (h1 : a1 ≠ []) (h2 : a2 ≠ []) :
    (∀ g : Bool, parse_goto (cond_goto_text a1 g a2 g) = none)
    ∧ parse_goto (cond_goto_text a1 false a2 true)
        = some (⟨⟨-1, ValueType.BIT⟩, bits_value a1, bits_value a2⟩, [])
    ∧ parse_goto (cond_goto_text a1 true a2 false)
        = some (⟨⟨-1, ValueType.BIT⟩, bits_value a2, bits_value a1⟩, []) := by
  have hwalk : ∀ g1 g2 : Bool, parse_goto (cond_goto_text a1 g1 a2 g2)
      = if bitInt g1 = bitInt g2 then none
        else some (if bitInt g2 = 0 then
            { (if bitInt g1 = 0 then { gotoDefault with next_if_zero := bits_value a1 }
               else { gotoDefault with next_if_one := bits_value a1 }) with
              next_if_zero := bits_value a2 }
          else
            { (if bitInt g1 = 0 then { gotoDefault with next_if_zero := bits_value a1 }
               else { gotoDefault with next_if_one := bits_value a1 }) with
              next_if_one := bits_value a2 }, []) := by
    intro g1 g2
    have hA : consume GOTO (cond_goto_text a1 g1 a2 g2)
        = some (render_bits a1 ++ (IF_THE_JUMP_REGISTER_IS ++ (bit_tok g1 ++
            (GOTO ++ (render_bits a2 ++ (IF_THE_JUMP_REGISTER_IS ++ bit_tok g2)))))) :=
      consume_append _ _ (by decide)
    have hB : check VARIABLE (render_bits a1 ++ (IF_THE_JUMP_REGISTER_IS ++ (bit_tok g1 ++
        (GOTO ++ (render_bits a2 ++ (IF_THE_JUMP_REGISTER_IS ++ bit_tok g2)))))) = false :=
      check_render_head 'V' _ a1 _ h1 (by decide) (by decide)
    have hC : parse_bits (render_bits a1 ++ (IF_THE_JUMP_REGISTER_IS ++ (bit_tok g1 ++
        (GOTO ++ (render_bits a2 ++ (IF_THE_JUMP_REGISTER_IS ++ bit_tok g2))))))
        = some (bits_value a1, IF_THE_JUMP_REGISTER_IS ++ (bit_tok g1 ++
            (GOTO ++ (render_bits a2 ++ (IF_THE_JUMP_REGISTER_IS ++ bit_tok g2))))) :=
      parse_bits_render a1 _ h1
        (check_head_ne 'Z' _ 'I' _ (by decide) (by decide))
        (check_head_ne 'O' _ 'I' _ (by decide) (by decide))
    have hD : check IF_THE_JUMP_REGISTER_IS (IF_THE_JUMP_REGISTER_IS ++ (bit_tok g1 ++
        (GOTO ++ (render_bits a2 ++ (IF_THE_JUMP_REGISTER_IS ++ bit_tok g2))))) = true :=
      check_append _ _ (by decide) (by decide)
    have hE : consume IF_THE_JUMP_REGISTER_IS (IF_THE_JUMP_REGISTER_IS ++ (bit_tok g1 ++
        (GOTO ++ (render_bits a2 ++ (IF_THE_JUMP_REGISTER_IS ++ bit_tok g2)))))
        = some (bit_tok g1 ++ (GOTO ++ (render_bits a2 ++
            (IF_THE_JUMP_REGISTER_IS ++ bit_tok g2)))) :=
      consume_append _ _ (by decide)
    have hF : check EQUAL_TO (bit_tok g1 ++ (GOTO ++ (render_bits a2 ++
        (IF_THE_JUMP_REGISTER_IS ++ bit_tok g2)))) = false := by
      cases g1
      · exact check_head_ne 'E' _ 'Z' _ (by decide) (by decide)
      · exact check_head_ne 'E' _ 'O' _ (by decide) (by decide)
    have hG : parse_bit (bit_tok g1 ++ (GOTO ++ (render_bits a2 ++
        (IF_THE_JUMP_REGISTER_IS ++ bit_tok g2))))
        = some (bitInt g1, GOTO ++ (render_bits a2 ++
            (IF_THE_JUMP_REGISTER_IS ++ bit_tok g2))) := parse_bit_tok g1 _
    have hH : check GOTO (GOTO ++ (render_bits a2 ++
        (IF_THE_JUMP_REGISTER_IS ++ bit_tok g2))) = true :=
      check_append _ _ (by decide) (by decide)
    have hI : consume GOTO (GOTO ++ (render_bits a2 ++
        (IF_THE_JUMP_REGISTER_IS ++ bit_tok g2)))
        = some (render_bits a2 ++ (IF_THE_JUMP_REGISTER_IS ++ bit_tok g2)) :=
      consume_append _ _ (by decide)
    have hJ : parse_bits (render_bits a2 ++ (IF_THE_JUMP_REGISTER_IS ++ bit_tok g2))
        = some (bits_value a2, IF_THE_JUMP_REGISTER_IS ++ bit_tok g2) :=
      parse_bits_render a2 _ h2
        (check_head_ne 'Z' _ 'I' _ (by decide) (by decide))
        (check_head_ne 'O' _ 'I' _ (by decide) (by decide))
    have hK : consume IF_THE_JUMP_REGISTER_IS (IF_THE_JUMP_REGISTER_IS ++ bit_tok g2)
        = some (bit_tok g2) := consume_append _ _ (by decide)
    have hL : check EQUAL_TO (bit_tok g2) = false := by
      cases g2
      · exact check_head_ne 'E' _ 'Z' _ (by decide) (by decide)
      · exact check_head_ne 'E' _ 'O' _ (by decide) (by decide)
    have hM : parse_bit (bit_tok g2) = some (bitInt g2, []) := by
      have := parse_bit_tok g2 []
      simpa using this
    simp only [cond_goto_text] at hA ⊢
    simp [parse_goto, parse_goto_rest, hA, hB, hC, hD, hE, hF, hG, hH, hI, hJ, hK, hL, hM]
  refine ⟨?_, ?_, ?_⟩
  · intro g
    rw [hwalk g g]
    simp
  · rw [hwalk false true]
    simp [bitInt, gotoDefault]
  · rw [hwalk true false]
    simp [bitInt, gotoDefault]

/-- Witness for `c9_conditional_goto_guard_bits` at the one-token addresses
ONE and ZERO. -/
theorem c9_conditional_goto_guard_bits_witness :
    parse_goto (cond_goto_text [true] false [false] false) = none
    ∧ parse_goto (cond_goto_text [true] false [false] true)
        = some (⟨⟨-1, ValueType.BIT⟩, bits_value [true], bits_value [false]⟩, []) :=
  ⟨(c9_conditional_goto_guard_bits [true] [false] (by decide) (by decide)).1 false,
   (c9_conditional_goto_guard_bits [true] [false] (by decide) (by decide)).2.1⟩
